import Mathlib

/-!
Verification development for the sentiment-analysis dashboard (`src/app.py`).

The app is a Streamlit single-page dashboard.  The parts relevant to the
claims are embedded shallowly below:

* the uploaded table (a pandas `DataFrame`) is modelled as a list of named
  columns of cells;
* the detailed-analysis export (tab 3, `detailed_df` construction around
  lines 1805-1819) which seeds numpy's global generator with 42, draws
  uniform scores, classifies them against the constant `0.3`, and appends
  analysis columns to a copy of the table;
* the summary-report export (lines 1748-1763) whose percentage fields are
  string constants;
* the upload handler (lines 1322-1338 and 1455-1464) with its size check
  and parse-failure branch;
* `check_password` (lines 876-911) with its rate-limiting lockout.

`np.random` is an external library; it is modelled as a deterministic
seeded generator (a linear congruential generator) whose
`uniform(low, high, n)` draws `n` rationals in the half-open interval
`[low, high)`, matching numpy's documented contract.  Machine floats are
modelled as rationals.
-/

/-- Cell of a pandas table: either a string or a numeric value. -/
inductive Cell where
  | str (s : String)
  | num (q : ℚ)
deriving DecidableEq, Repr

/-- Numeric view of a cell (non-numeric cells read as 0). -/
def cellNum : Cell → ℚ
  | Cell.str _ => 0
  | Cell.num q => q

/-- String view of a cell (numbers are stringified, as Python `str` would). -/
def cellText : Cell → String
  | Cell.str s => s
  | Cell.num q => toString q

/-- A pandas `DataFrame`: a row count plus named columns of cells. -/
structure DataFrame where
  nRows : Nat
  cols : List (String × List Cell)
deriving DecidableEq, Repr

/-- Column lookup on the underlying list: the first column with the given
name. -/
def getColL : List (String × List Cell) → String → Option (List Cell)
  | [], _ => none
  | c :: t, nm => if c.fst = nm then some c.snd else getColL t nm

/-- Whether a column of the given name exists. -/
def hasColL : List (String × List Cell) → String → Bool
  | [], _ => false
  | c :: t, nm => if c.fst = nm then true else hasColL t nm

/-- Replace the values of every column of the given name, in place. -/
def replaceColL : List (String × List Cell) → String → List Cell →
    List (String × List Cell)
  | [], _, _ => []
  | c :: t, nm, v =>
    if c.fst = nm then (nm, v) :: replaceColL t nm v
    else c :: replaceColL t nm v

/-- Column lookup, `df[name]`. -/
def getCol (df : DataFrame) (nm : String) : Option (List Cell) :=
  getColL df.cols nm

/-- Column assignment, `df[name] = vals`: replaces the values of an existing
column in place, otherwise appends a new column at the end (pandas
semantics). -/
def setCol (df : DataFrame) (nm : String) (v : List Cell) : DataFrame :=
  if hasColL df.cols nm then ⟨df.nRows, replaceColL df.cols nm v⟩
  else ⟨df.nRows, df.cols ++ [(nm, v)]⟩

theorem nRows_setCol (df : DataFrame) (nm : String) (v : List Cell) :
    (setCol df nm v).nRows = df.nRows := by
  unfold setCol
  split <;> rfl

theorem getColL_replaceColL_self (l : List (String × List Cell))
    (nm : String) (v : List Cell) (h : hasColL l nm = true) :
    getColL (replaceColL l nm v) nm = some v := by
  induction l with
  | nil => simp [hasColL] at h
  | cons c t ih =>
    by_cases hc : c.fst = nm
    · simp [replaceColL, getColL, hc]
    · have ht : hasColL t nm = true := by
        simpa [hasColL, hc] using h
      simp [replaceColL, getColL, hc, ih ht]

theorem getColL_append_new (l : List (String × List Cell)) (nm : String)
    (v : List Cell) (h : hasColL l nm = false) :
    getColL (l ++ [(nm, v)]) nm = some v := by
  induction l with
  | nil => simp [getColL]
  | cons c t ih =>
    by_cases hc : c.fst = nm
    · simp [hasColL, hc] at h
    · have ht : hasColL t nm = false := by
        simpa [hasColL, hc] using h
      simp [getColL, hc, ih ht]

/-- Reading a column right after setting it yields the assigned values. -/
theorem getCol_setCol_self (df : DataFrame) (nm : String) (v : List Cell) :
    getCol (setCol df nm v) nm = some v := by
  unfold getCol setCol
  split
  case isTrue h => exact getColL_replaceColL_self df.cols nm v h
  case isFalse h =>
    exact getColL_append_new df.cols nm v (Bool.eq_false_iff.mpr h)

theorem getColL_replaceColL_ne (l : List (String × List Cell))
    (nm nm' : String) (v : List Cell) (h : nm' ≠ nm) :
    getColL (replaceColL l nm' v) nm = getColL l nm := by
  induction l with
  | nil => rfl
  | cons c t ih =>
    simp only [replaceColL]
    by_cases hc : c.fst = nm'
    · rw [if_pos hc]
      have hcm : c.fst ≠ nm := fun hx => h (hc.symm.trans hx)
      simp only [getColL]
      rw [if_neg h, if_neg hcm]
      exact ih
    · rw [if_neg hc]
      simp only [getColL]
      by_cases hm : c.fst = nm
      · rw [if_pos hm, if_pos hm]
      · rw [if_neg hm, if_neg hm]
        exact ih

theorem getColL_append_ne (l : List (String × List Cell)) (nm nm' : String)
    (v : List Cell) (h : nm' ≠ nm) :
    getColL (l ++ [(nm', v)]) nm = getColL l nm := by
  induction l with
  | nil => simp [getColL, h]
  | cons c t ih =>
    by_cases hm : c.fst = nm
    · simp [getColL, hm]
    · simp [getColL, hm, ih]

/-- Setting one column does not disturb reads of a differently-named column. -/
theorem getCol_setCol_ne (df : DataFrame) (nm nm' : String) (v : List Cell)
    (h : nm' ≠ nm) : getCol (setCol df nm' v) nm = getCol df nm := by
  unfold getCol setCol
  split
  · exact getColL_replaceColL_ne df.cols nm nm' v h
  · exact getColL_append_ne df.cols nm nm' v h

theorem mem_replaceColL_of_ne {l : List (String × List Cell)}
    {c : String × List Cell} (hc : c ∈ l) {nm : String} (h : c.fst ≠ nm)
    (v : List Cell) : c ∈ replaceColL l nm v := by
  induction l with
  | nil => simp at hc
  | cons d t ih =>
    simp only [replaceColL]
    rcases List.mem_cons.mp hc with rfl | hmem
    · rw [if_neg h]
      exact List.mem_cons_self c _
    · by_cases hd : d.fst = nm
      · rw [if_pos hd]
        exact List.mem_cons_of_mem _ (ih hmem)
      · rw [if_neg hd]
        exact List.mem_cons_of_mem _ (ih hmem)

/-- A column whose name differs from the assigned one survives the
assignment verbatim. -/
theorem mem_setCol_of_ne {df : DataFrame} {c : String × List Cell}
    (hc : c ∈ df.cols) {nm : String} (h : c.fst ≠ nm) (v : List Cell) :
    c ∈ (setCol df nm v).cols := by
  unfold setCol
  split
  · exact mem_replaceColL_of_ne hc h v
  · exact List.mem_append_left _ hc

/-- Step function of the modelled pseudo-random generator standing in for
numpy's global generator (an external library): a linear congruential
generator on 31 bits. -/
def lcgNext (s : Nat) : Nat := (1103515245 * s + 12345) % 2147483648

/-- Draw `n` raw generator outputs starting from state `s`, returning the
draws and the final state. -/
def lcgRun : Nat → Nat → List Nat × Nat
  | s, 0 => ([], s)
  | s, n + 1 =>
    let s' := lcgNext s
    let r := lcgRun s' n
    (s' :: r.fst, r.snd)

/-- Model of `np.random.uniform(low, high, size=n)` from the global state
`s`: `n` rationals in the half-open interval `[low, high)`, together with
the advanced generator state.  Only this contract of numpy's generator is
relied upon. -/
def npUniform (low high : ℚ) (s n : Nat) : List ℚ × Nat :=
  let r := lcgRun s n
  (r.fst.map (fun k => low + (high - low) * ((k % 1000000 : Nat) : ℚ) / 1000000),
   r.snd)

/-- Model of numpy `.round(3)`: round to 3 decimal places. -/
def round3 (x : ℚ) : ℚ := (((x * 1000 + 1 / 2).floor : ℤ) : ℚ) / 1000

/-- Model of numpy `.round(2)`: round to 2 decimal places. -/
def round2 (x : ℚ) : ℚ := (((x * 100 + 1 / 2).floor : ℤ) : ℚ) / 100

theorem ratFloor_eq_floor (q : ℚ) : q.floor = ⌊q⌋ := by
  rw [Rat.floor_def', ← Rat.floor_def]

theorem round3_eq (x : ℚ) : round3 x = ((⌊x * 1000 + 1 / 2⌋ : ℤ) : ℚ) / 1000 := by
  rw [round3, ratFloor_eq_floor]

/-- Classification used by the detailed-analysis export (`np.where` at
lines 1810-1813 of `src/app.py`): strictly above `0.3` is Positive,
strictly below `-0.3` is Negative, otherwise Neutral.  The bound `0.3` is
a literal in the source, not the slider value. -/
def sentiment_category (x : ℚ) : String :=
  if x > 3 / 10 then "Positive"
  else if x < -(3 / 10) then "Negative"
  else "Neutral"

/-- Classification rule as worded by the spec (C1): strictly above the
configured threshold is Positive, strictly below its negation is Negative,
otherwise Neutral.  Kept separate from `sentiment_category` so the two can
be compared. -/
def specLabel (threshold x : ℚ) : String :=
  if x > threshold then "Positive"
  else if x < -threshold then "Negative"
  else "Neutral"

/-- The detailed-analysis export (`src/app.py` lines 1805-1819), with the
numpy global generator state `g` made explicit.  `np.random.seed(42)`
discards the incoming state, the rounded scores are stored in
`sentiment_score`, `sentiment_category` is computed from the stored
(rounded) scores against the literal `0.3`, and four further analysis
columns are appended to a copy of the uploaded table. -/
def detailedExportRun (g : Nat) (mode user ts : String) (df : DataFrame) :
    DataFrame × Nat :=
  let n := df.nRows
  let g0 := 42
  let u1 := npUniform (-1) 1 g0 n
  let scores := u1.fst.map round3
  let cats := scores.map sentiment_category
  let u2 := npUniform (6 / 10) (98 / 100) u1.snd n
  let confs := u2.fst.map round2
  let d1 := setCol df "sentiment_score" (scores.map Cell.num)
  let d2 := setCol d1 "sentiment_category" (cats.map Cell.str)
  let d3 := setCol d2 "confidence_score" (confs.map Cell.num)
  let d4 := setCol d3 "analysis_timestamp" (List.replicate n (Cell.str ts))
  let d5 := setCol d4 "analysis_engine" (List.replicate n (Cell.str mode))
  let d6 := setCol d5 "analyzed_by" (List.replicate n (Cell.str user))
  (d6, u2.snd)

/-- The detailed-analysis export as the user sees it (the incoming
generator state is irrelevant because the handler reseeds with 42). -/
def detailedExport (mode user ts : String) (df : DataFrame) : DataFrame :=
  (detailedExportRun 0 mode user ts df).fst

/-- The rounded score column contents, a function of the row count alone. -/
def scoresOf (n : Nat) : List ℚ :=
  (npUniform (-1) 1 42 n).fst.map round3

/-- The category column contents, a function of the row count alone. -/
def catsOf (n : Nat) : List String :=
  (scoresOf n).map sentiment_category

theorem nRows_detailedExportRun (g : Nat) (mode user ts : String)
    (df : DataFrame) : (detailedExportRun g mode user ts df).fst.nRows = df.nRows := by
  unfold detailedExportRun
  simp [nRows_setCol]

theorem getCol_export_score (g : Nat) (mode user ts : String)
    (df : DataFrame) :
    getCol (detailedExportRun g mode user ts df).fst "sentiment_score" =
      some ((scoresOf df.nRows).map Cell.num) := by
  unfold detailedExportRun
  rw [getCol_setCol_ne _ _ _ _ (by decide), getCol_setCol_ne _ _ _ _ (by decide),
    getCol_setCol_ne _ _ _ _ (by decide), getCol_setCol_ne _ _ _ _ (by decide),
    getCol_setCol_ne _ _ _ _ (by decide), getCol_setCol_self]
  rfl

theorem getCol_export_category (g : Nat) (mode user ts : String)
    (df : DataFrame) :
    getCol (detailedExportRun g mode user ts df).fst "sentiment_category" =
      some ((catsOf df.nRows).map Cell.str) := by
  unfold detailedExportRun
  rw [getCol_setCol_ne _ _ _ _ (by decide), getCol_setCol_ne _ _ _ _ (by decide),
    getCol_setCol_ne _ _ _ _ (by decide), getCol_setCol_ne _ _ _ _ (by decide),
    getCol_setCol_self]
  rfl

theorem round3_val {x : ℚ} {z : ℤ} (h1 : (z : ℚ) ≤ x * 1000 + 1 / 2)
    (h2 : x * 1000 + 1 / 2 < z + 1) : round3 x = (z : ℚ) / 1000 := by
  rw [round3_eq, Int.floor_eq_iff.mpr ⟨h1, h2⟩]

/-- First modelled score: the score column of a one-row table. -/
theorem scoresOf_one : scoresOf 1 = [-(1 / 125)] := by
  simp only [scoresOf, npUniform, lcgRun, lcgNext]
  norm_num
  rw [@round3_val _ (-8) (by norm_num) (by norm_num)]
  norm_num

/-- Uniform draws respect the half-open range contract. -/
theorem npUniform_mem {low high : ℚ} (hlh : low < high) {s n : Nat} {q : ℚ}
    (hq : q ∈ (npUniform low high s n).fst) : low ≤ q ∧ q < high := by
  obtain ⟨k, hk, rfl⟩ := List.mem_map.mp hq
  have h0 : (0 : ℚ) ≤ ((k % 1000000 : Nat) : ℚ) / 1000000 := by positivity
  have h1 : ((k % 1000000 : Nat) : ℚ) / 1000000 < 1 := by
    rw [div_lt_one (by norm_num)]
    exact_mod_cast Nat.mod_lt k (by norm_num)
  constructor
  · nlinarith
  · nlinarith

/-- Rounding to 3 decimals keeps a value of `[-1, 1)` inside `[-1, 1]`. -/
theorem round3_bound {q : ℚ} (h1 : -1 ≤ q) (h2 : q < 1) :
    -1 ≤ round3 q ∧ round3 q ≤ 1 := by
  rw [round3_eq]
  have hf1 : (-1000 : ℤ) ≤ ⌊q * 1000 + 1 / 2⌋ := by
    refine Int.le_floor.mpr ?_
    push_cast
    linarith
  have hf2 : ⌊q * 1000 + 1 / 2⌋ < 1001 := by
    refine Int.floor_lt.mpr ?_
    push_cast
    linarith
  have hf2' : ⌊q * 1000 + 1 / 2⌋ ≤ 1000 := by omega
  constructor
  · rw [le_div_iff₀ (by norm_num)]
    have : ((-1000 : ℤ) : ℚ) ≤ (⌊q * 1000 + 1 / 2⌋ : ℚ) := by exact_mod_cast hf1
    linarith
  · rw [div_le_one (by norm_num)]
    exact_mod_cast hf2'

/-- Every entry of the modelled score column lies in `[-1, 1]`. -/
theorem scoresOf_bound {n : Nat} {q : ℚ} (h : q ∈ scoresOf n) :
    -1 ≤ q ∧ q ≤ 1 := by
  obtain ⟨v, hv, rfl⟩ := List.mem_map.mp h
  have hb := npUniform_mem (by norm_num : (-1 : ℚ) < 1) hv
  exact round3_bound hb.1 hb.2

/-- Whitespace test used by the cleaner (space, tab, newline, carriage
return — the characters Python `str.split()` splits on, to first order). -/
def isWS (c : Char) : Bool :=
  c == ' ' || c == '\t' || c == '\n' || c == '\r'

/-- Accumulating word splitter: splits on whitespace, discarding empty
words (the behaviour of Python `text.split()`). -/
def wordsAux (cur : List Char) : List Char → List (List Char)
  | [] => if cur.isEmpty then [] else [cur.reverse]
  | c :: rest =>
    if isWS c then
      if cur.isEmpty then wordsAux [] rest
      else cur.reverse :: wordsAux [] rest
    else wordsAux (c :: cur) rest

/-- Split a character list into whitespace-delimited words. -/
def wordsOf (l : List Char) : List (List Char) := wordsAux [] l

/-- Join words with single spaces (Python `' '.join(words)`). -/
def joinSp : List (List Char) → List Char
  | [] => []
  | [w] => w
  | w :: x :: ws => w ++ ' ' :: joinSp (x :: ws)

/-- Whether `p` is an initial segment of `l`. -/
def leadsWith : List Char → List Char → Bool
  | [], _ => true
  | _ :: _, [] => false
  | p :: ps, c :: cs => p == c && leadsWith ps cs

/-- Whether `p` occurs as a contiguous substring of `l`. -/
def occursIn : List Char → List Char → Bool
  | p, [] => p.isEmpty
  | p, c :: cs => leadsWith p (c :: cs) || occursIn p cs

/-- The `http` URL marker. -/
def httpPat : List Char := ['h', 't', 't', 'p']

/-- The `www` URL marker. -/
def wwwPat : List Char := ['w', 'w', 'w']

/-- Modelled from the spec: the `TextNormalizer.clean` operation (spec
§4.1) has no implementation in `src/app.py` — the app never cleans text —
so it is modelled from the spec's words on the character list: missing
input becomes the empty string; otherwise the text is split on whitespace
(which also strips and collapses whitespace runs), whitespace-delimited
tokens containing a URL marker (`http`, `www`) are removed, the rest are
rejoined with single spaces, and the result is truncated to 500
characters. -/
def cleanChars (l : List Char) : List Char :=
  List.take 500
    (joinSp ((wordsOf l).filter
      (fun w => !(occursIn httpPat w) && !(occursIn wwwPat w))))

/-- Modelled from the spec: `clean(raw)` on an optional string, per spec
§4.1.  A missing/null value yields the empty string; the function is total
by construction (it cannot raise). -/
def clean : Option String → String
  | none => ""
  | some s => String.mk (cleanChars s.data)

theorem leadsWith_trans {p q l : List Char} (hpq : leadsWith p q = true)
    (hql : leadsWith q l = true) : leadsWith p l = true := by
  induction p generalizing q l with
  | nil => rfl
  | cons a ps ih =>
    cases q with
    | nil => simp [leadsWith] at hpq
    | cons b qs =>
      cases l with
      | nil => simp [leadsWith] at hql
      | cons c ls =>
        simp only [leadsWith, Bool.and_eq_true, beq_iff_eq] at hpq hql ⊢
        exact ⟨hpq.1.trans hql.1, ih hpq.2 hql.2⟩

theorem occursIn_of_leadsWith {p q l : List Char} (hpq : leadsWith p q = true)
    (hql : occursIn q l = true) : occursIn p l = true := by
  induction l with
  | nil =>
    have hq : q = [] := by
      cases q with
      | nil => rfl
      | cons b qs => simp [occursIn] at hql
    subst hq
    have hp : p = [] := by
      cases p with
      | nil => rfl
      | cons a ps => simp [leadsWith] at hpq
    subst hp
    rfl
  | cons c cs ih =>
    rcases Bool.or_eq_true_iff.mp (by simpa [occursIn] using hql) with h | h
    · have := leadsWith_trans hpq h
      simp [occursIn, this]
    · have := ih h
      simp [occursIn, this]

theorem leadsWith_split {p : List Char} (hsp : ' ' ∉ p) :
    ∀ {w r : List Char}, leadsWith p (w ++ ' ' :: r) = true →
      leadsWith p w = true := by
  induction p with
  | nil => intro w r _; rfl
  | cons a ps ih =>
    intro w r h
    cases w with
    | nil =>
      simp only [List.nil_append, leadsWith, Bool.and_eq_true, beq_iff_eq] at h
      exact absurd (h.1 ▸ List.mem_cons_self a ps) hsp
    | cons b wr =>
      simp only [List.cons_append, leadsWith, Bool.and_eq_true, beq_iff_eq] at h ⊢
      exact ⟨h.1, ih (fun hm => hsp (List.mem_cons_of_mem a hm)) h.2⟩

theorem occursIn_append_space {p : List Char} (hsp : ' ' ∉ p) :
    ∀ {w r : List Char}, occursIn p w = false →
      occursIn p (' ' :: r) = false → occursIn p (w ++ ' ' :: r) = false := by
  intro w
  induction w with
  | nil =>
    intro r _ hr
    simpa using hr
  | cons b wr ih =>
    intro r hw hr
    have hw' : leadsWith p (b :: wr) = false ∧ occursIn p wr = false := by
      have := (Bool.or_eq_false_iff.mp (by simpa [occursIn] using hw))
      exact this
    rw [List.cons_append]
    have htail : occursIn p (wr ++ ' ' :: r) = false := ih hw'.2 hr
    have hhead : leadsWith p (b :: (wr ++ ' ' :: r)) = false := by
      rw [← Bool.not_eq_true]
      intro hl
      have : leadsWith p ((b :: wr) ++ ' ' :: r) = true := by
        simpa using hl
      have := leadsWith_split hsp this
      rw [this] at hw'
      exact Bool.true_eq_false.mp hw'.1
    simp [occursIn, hhead, htail]

theorem occursIn_space_cons {p : List Char} (hne : p ≠ []) (hsp : ' ' ∉ p)
    {l : List Char} (hl : occursIn p l = false) :
    occursIn p (' ' :: l) = false := by
  have hhead : leadsWith p (' ' :: l) = false := by
    cases p with
    | nil => exact absurd rfl hne
    | cons a ps =>
      rw [← Bool.not_eq_true]
      intro h
      simp only [leadsWith, Bool.and_eq_true, beq_iff_eq] at h
      exact hsp (h.1 ▸ List.mem_cons_self a ps)
  simp [occursIn, hhead, hl]

theorem occursIn_joinSp {p : List Char} (hne : p ≠ []) (hsp : ' ' ∉ p) :
    ∀ {ws : List (List Char)}, (∀ w ∈ ws, occursIn p w = false) →
      occursIn p (joinSp ws) = false := by
  intro ws
  induction ws with
  | nil =>
    intro _
    cases p with
    | nil => exact absurd rfl hne
    | cons a ps => rfl
  | cons w t ih =>
    intro hall
    cases t with
    | nil => exact hall w (List.mem_cons_self w [])
    | cons x ts =>
      show occursIn p (w ++ ' ' :: joinSp (x :: ts)) = false
      refine occursIn_append_space hsp (hall w (List.mem_cons_self w _)) ?_
      refine occursIn_space_cons hne hsp ?_
      exact ih (fun u hu => hall u (List.mem_cons_of_mem w hu))

theorem leadsWith_take {p : List Char} :
    ∀ {l : List Char} {n : Nat}, leadsWith p (List.take n l) = true →
      leadsWith p l = true := by
  induction p with
  | nil => intro l n _; rfl
  | cons a ps ih =>
    intro l n h
    cases l with
    | nil => simpa using h
    | cons c cs =>
      cases n with
      | zero => simp [leadsWith] at h
      | succ m =>
        simp only [List.take_succ_cons, leadsWith, Bool.and_eq_true] at h ⊢
        exact ⟨h.1, ih h.2⟩

theorem occursIn_take {p : List Char} :
    ∀ {l : List Char} {n : Nat}, occursIn p l = false →
      occursIn p (List.take n l) = false := by
  intro l
  induction l with
  | nil =>
    intro n h
    simpa [List.take_nil] using h
  | cons c cs ih =>
    intro n h
    have hparts : leadsWith p (c :: cs) = false ∧ occursIn p cs = false :=
      Bool.or_eq_false_iff.mp (by simpa [occursIn] using h)
    cases n with
    | zero =>
      rw [List.take_zero]
      cases p with
      | nil => simp [leadsWith] at hparts
      | cons a ps => rfl
    | succ m =>
      rw [List.take_succ_cons]
      have htail : occursIn p (List.take m cs) = false := ih hparts.2
      have hhead : leadsWith p (c :: List.take m cs) = false := by
        rw [← Bool.not_eq_true]
        intro hl
        have : leadsWith p (List.take (m + 1) (c :: cs)) = true := by
          simpa [List.take_succ_cons] using hl
        have := leadsWith_take this
        rw [this] at hparts
        exact Bool.true_eq_false.mp hparts.1
      simp [occursIn, hhead, htail]

theorem occursIn_false_of_leads {p q l : List Char}
    (hpq : leadsWith p q = true) (hp : occursIn p l = false) :
    occursIn q l = false := by
  rw [← Bool.not_eq_true]
  intro h
  have := occursIn_of_leadsWith hpq h
  rw [this] at hp
  exact Bool.true_eq_false.mp hp

theorem clean_marker_free (s : String) {p : List Char} (hne : p ≠ [])
    (hsp : ' ' ∉ p)
    (hword : ∀ w ∈ (wordsOf s.data).filter
      (fun w => !(occursIn httpPat w) && !(occursIn wwwPat w)),
      occursIn p w = false) :
    occursIn p (clean (some s)).data = false := by
  show occursIn p (cleanChars s.data) = false
  exact occursIn_take (occursIn_joinSp hne hsp hword)

/-- C8: for every raw input, `clean(raw)` returns a string of length at
most 500 that contains none of the URL markers `http://`, `https://` and
`www.`; a missing/null input yields the empty string; and the function is
total (it cannot raise), being a plain Lean function. -/
theorem clean_contract (raw : Option String) :
    (clean raw).length ≤ 500 ∧
    occursIn ['h', 't', 't', 'p', ':', '/', '/'] (clean raw).data = false ∧
    occursIn ['h', 't', 't', 'p', 's', ':', '/', '/'] (clean raw).data = false ∧
    occursIn ['w', 'w', 'w', '.'] (clean raw).data = false ∧
    clean none = "" := by
  cases raw with
  | none => exact ⟨by decide, by decide, by decide, by decide, rfl⟩
  | some s =>
    have hhttp : ∀ w ∈ (wordsOf s.data).filter
        (fun w => !(occursIn httpPat w) && !(occursIn wwwPat w)),
        occursIn httpPat w = false := by
      intro w hw
      have hpred := (List.mem_filter.mp hw).2
      simp only [Bool.and_eq_true, Bool.not_eq_true'] at hpred
      exact hpred.1
    have hwww : ∀ w ∈ (wordsOf s.data).filter
        (fun w => !(occursIn httpPat w) && !(occursIn wwwPat w)),
        occursIn wwwPat w = false := by
      intro w hw
      have hpred := (List.mem_filter.mp hw).2
      simp only [Bool.and_eq_true, Bool.not_eq_true'] at hpred
      exact hpred.2
    refine ⟨?_, ?_, ?_, ?_, rfl⟩
    · show (cleanChars s.data).length ≤ 500
      unfold cleanChars
      simp [List.length_take]
    · exact occursIn_false_of_leads (by decide)
        (clean_marker_free s (by decide) (by decide) hhttp)
    · exact occursIn_false_of_leads (by decide)
        (clean_marker_free s (by decide) (by decide) hhttp)
    · exact occursIn_false_of_leads (by decide)
        (clean_marker_free s (by decide) (by decide) hwww)

/-- Authentication configuration (`load_config` in `src/app.py`): the
shared password and the user lists. -/
structure AuthConfig where
  commonPassword : String
  adminUsers : List String
  allowedUsers : List String

/-- Strip leading and trailing whitespace from a character list (the
effect of Python `str.strip()`). -/
def trimChars (l : List Char) : List Char :=
  ((l.dropWhile isWS).reverse.dropWhile isWS).reverse

/-- Username normalisation applied by `check_password`
(`username.strip().lower()`), written on the character list so that it
evaluates. -/
def normUser (u : String) : String :=
  String.mk ((trimChars u.data).map Char.toLower)

/-- Lookup in the `login_attempts` map (a Python dict keyed by normalised
username, holding `[attempts, last_attempt_time]`), modelled as an
association list with times in whole seconds. -/
def lookupA : List (String × Nat × Nat) → String → Option (Nat × Nat)
  | [], _ => none
  | (k, a, t) :: rest, u => if k = u then some (a, t) else lookupA rest u

/-- Deletion from the `login_attempts` map (`del`). -/
def removeA (l : List (String × Nat × Nat)) (u : String) :
    List (String × Nat × Nat) :=
  l.filter (fun e => !(e.fst = u : Bool))

/-- Recording a failed attempt: insert `[1, now]` for a new username,
otherwise increment the count and refresh the timestamp. -/
def recordFail (l : List (String × Nat × Nat)) (u : String) (now : Nat) :
    List (String × Nat × Nat) :=
  match lookupA l u with
  | none => l ++ [(u, 1, now)]
  | some _ => l.map (fun e => if e.fst = u then (u, e.snd.fst + 1, now) else e)

/-- `check_password` (`src/app.py` lines 876-911): normalises the
username, refuses when at least `MAX_LOGIN_ATTEMPTS = 3` failures were
recorded less than 300 seconds ago, otherwise accepts exactly when the
username is non-empty and the password matches the shared password,
resetting the failure entry on success and recording a failure otherwise.
Returns `((success, role-or-message), new attempts map)`. -/
def check_password (cfg : AuthConfig) (att : List (String × Nat × Nat))
    (now : Nat) (username password : String) :
    (Bool × String) × List (String × Nat × Nat) :=
  let u := normUser username
  let lockedOut :=
    match lookupA att u with
    | some (a, t) => decide (3 ≤ a) && decide ((now : ℤ) - (t : ℤ) < 300)
    | none => false
  if lockedOut then
    ((false, "Too many failed attempts. Please try again in 5 minutes."), att)
  else if (!(u = "" : Bool)) && (password = cfg.commonPassword : Bool) then
    let role :=
      if cfg.adminUsers.contains u then "admin"
      else if cfg.allowedUsers.contains u then "user"
      else "guest"
    ((true, role), removeA att u)
  else
    ((false, "Invalid credentials"), recordFail att u now)

theorem lookupA_removeA (l : List (String × Nat × Nat)) (u : String) :
    lookupA (removeA l u) u = none := by
  induction l with
  | nil => rfl
  | cons e t ih =>
    by_cases he : e.fst = u
    · simp [removeA, he] at ih ⊢
      exact ih
    · obtain ⟨k, a, ti⟩ := e
      simp only at he
      simp [removeA, lookupA, he] at ih ⊢
      exact ih

/-- The slice of Streamlit session state touched by the upload handler. -/
structure SessState where
  df : Option DataFrame
  fileName : Option String
  dataLoaded : Bool
deriving DecidableEq

/-- An uploaded file: its name, its size in bytes
(`len(uploaded_file.getvalue())`), and the outcome of parsing it as its
declared format (pandas `read_csv` / `read_excel` are external; their
outcome is carried by the file value). -/
structure UploadedFile where
  name : String
  sizeBytes : Nat
  parsed : Except String DataFrame

/-- The upload handler (`src/app.py` lines 1322-1338 and 1455-1464): if
the file size in megabytes exceeds the configured maximum an error is
shown and nothing else happens; otherwise the file is parsed, a parse
failure is caught and shown as an error, and only a successful parse
stores the new table in the session state.  Returns the new state and the
reported error, if any. -/
def handleUpload (maxMB : Nat) (s : SessState) (f : UploadedFile) :
    SessState × Option String :=
  if ((f.sizeBytes : ℚ) / (1024 * 1024)) > (maxMB : ℚ) then
    (s, some "File size exceeds maximum allowed size")
  else
    match f.parsed with
    | Except.ok d => ({ df := some d, fileName := some f.name, dataLoaded := true }, none)
    | Except.error e => (s, some ("Error loading file: " ++ e))

/-- The summary-report export (`src/app.py` lines 1748-1763): the
`summary_data` dictionary serialised to CSV.  Every percentage field is a
string constant. -/
def summary_data (username genDate : String) (totalRecords : Nat)
    (analysisMode sessionId deployMode : String) : List (String × String) :=
  [("Report Type", "Sentiment Analysis Summary"),
   ("Generated By", username),
   ("Generation Date", genDate),
   ("Total Records", toString totalRecords),
   ("Positive Sentiment (%)", "65"),
   ("Negative Sentiment (%)", "15"),
   ("Neutral Sentiment (%)", "20"),
   ("Average Confidence", "82%"),
   ("Analysis Engine", analysisMode),
   ("Session ID", sessionId),
   ("Deployment Mode", deployMode)]

/-- Field lookup in the serialised summary report. -/
def summaryField (l : List (String × String)) (k : String) : Option String :=
  (l.find? (fun e => e.fst == k)).map (fun e => e.snd)

/-- Rounding to 1 decimal place, as the spec's percentage rule requires. -/
def round1 (x : ℚ) : ℚ := (((x * 10 + 1 / 2).floor : ℤ) : ℚ) / 10

/-- Per-label percentage as worded by the spec (C3): the label's count
among surviving rows over the surviving-row count, as a percentage rounded
to 1 decimal place. -/
def specPct (label : String) (labels : List String) : ℚ :=
  round1 (100 * (labels.countP (fun l => l == label) : ℚ) / (labels.length : ℚ))

/-- The analysis column names appended by the detailed-analysis export. -/
def analysisCols : List String :=
  ["sentiment_score", "sentiment_category", "confidence_score",
   "analysis_timestamp", "analysis_engine", "analyzed_by"]

/-- A one-row table whose review text cleans to a 2-character string. -/
def df1 : DataFrame := ⟨1, [("review", [Cell.str "ab"])]⟩

/-- A one-row table that already has a column named `sentiment_score`. -/
def df2 : DataFrame := ⟨1, [("sentiment_score", [Cell.str "hello"])]⟩

/-- A one-row table with different text than `df1`. -/
def df3 : DataFrame := ⟨1, [("text", [Cell.str "terrible service, awful"])]⟩

/-- Rows of a column whose cleaned text has length at most 3 — the rows
the spec's drop rule (C2) would exclude. -/
def shortRows (df : DataFrame) (col : String) : Nat :=
  ((getCol df col).getD []).countP
    (fun c => decide ((clean (some (cellText c))).length ≤ 3))

/-- C1 (amended): every row of the detailed-analysis result carries a
sentiment label determined from that row's stored (rounded) score by the
strict rule with the FIXED threshold 0.3 — Positive above `0.3`, Negative
below `-0.3`, Neutral otherwise, boundary scores `±0.3` yielding Neutral —
and this rule coincides with the spec's threshold rule instantiated at the
constant `0.3`; the user-configured slider value plays no part. -/
theorem sentiment_category_fixed_threshold (mode user ts : String)
    (df : DataFrame) :
    ∃ sc, getCol (detailedExport mode user ts df) "sentiment_score" = some sc ∧
      getCol (detailedExport mode user ts df) "sentiment_category" =
        some (sc.map (fun c => Cell.str (sentiment_category (cellNum c)))) ∧
      (∀ x : ℚ, sentiment_category x = specLabel (3 / 10) x) ∧
      sentiment_category (3 / 10) = "Neutral" ∧
      sentiment_category (-(3 / 10)) = "Neutral" := by
  refine ⟨(scoresOf df.nRows).map Cell.num, ?_, ?_, fun x => rfl, ?_, ?_⟩
  · exact getCol_export_score 0 mode user ts df
  · rw [detailedExport, getCol_export_category]
    congr 1
    simp only [catsOf, List.map_map]
    rfl
  · norm_num [sentiment_category]
  · norm_num [sentiment_category]

/-- C1 counterexample: on a one-row table with the user-selectable
threshold 0 (a value in `[0, 1]`), the export stores score `-0.008` and
labels the row Neutral, while the claim's rule with threshold 0 demands
Negative — the classification uses the literal `0.3`, not the configured
threshold. -/
theorem sentiment_category_ignores_config_cex :
    getCol (detailedExport "TextBlob (Recommended)" "admin"
        "2026-02-03 04:05:06" df1) "sentiment_score" =
      some [Cell.num (-(1 / 125))] ∧
    getCol (detailedExport "TextBlob (Recommended)" "admin"
        "2026-02-03 04:05:06" df1) "sentiment_category" =
      some [Cell.str "Neutral"] ∧
    ((0 : ℚ) ≤ 0 ∧ (0 : ℚ) ≤ 1) ∧
    specLabel 0 (-(1 / 125)) = "Negative" ∧
    "Neutral" ≠ "Negative" := by
  have hn : df1.nRows = 1 := rfl
  refine ⟨?_, ?_, ⟨le_refl 0, by norm_num⟩, ?_, by decide⟩
  · rw [detailedExport, getCol_export_score, hn, scoresOf_one]
    rfl
  · rw [detailedExport, getCol_export_category, hn]
    have : catsOf 1 = ["Neutral"] := by
      rw [catsOf, scoresOf_one]
      norm_num [sentiment_category]
    rw [this]
    rfl
  · norm_num [specLabel]

/-- C2 (amended): the detailed-analysis result table always has exactly as
many rows as the uploaded table — no row is dropped, whatever the cleaned
length of its text. -/
theorem detailedExport_preserves_row_count (mode user ts : String)
    (df : DataFrame) :
    (detailedExport mode user ts df).nRows = df.nRows :=
  nRows_detailedExportRun 0 mode user ts df

/-- C2 counterexample: a one-row table whose single review `"ab"` cleans
to 2 characters (so the spec's rule counts K = 1 droppable row out of
M = 1 and demands M - K = 0 result rows) still yields a one-row result
table. -/
theorem row_drop_cex :
    df1.nRows = 1 ∧ shortRows df1 "review" = 1 ∧
    (detailedExport "m" "u" "t" df1).nRows = 1 ∧ (1 : Nat) ≠ 1 - 1 := by
  exact ⟨rfl, by decide, by decide, by decide⟩

theorem round1_eq (x : ℚ) : round1 x = ((⌊x * 10 + 1 / 2⌋ : ℤ) : ℚ) / 10 := by
  rw [round1, ratFloor_eq_floor]

/-- C3 (amended): the summary report's per-label percentage fields are the
string constants 65, 15 and 20, independent of the analysed data — they do
not equal the per-label shares of the surviving rows. -/
theorem summary_percentages_constant (username genDate : String) (n : Nat)
    (analysisMode sessionId deployMode : String) :
    summaryField (summary_data username genDate n analysisMode sessionId
      deployMode) "Positive Sentiment (%)" = some "65" ∧
    summaryField (summary_data username genDate n analysisMode sessionId
      deployMode) "Negative Sentiment (%)" = some "15" ∧
    summaryField (summary_data username genDate n analysisMode sessionId
      deployMode) "Neutral Sentiment (%)" = some "20" :=
  ⟨rfl, rfl, rfl⟩

/-- C3 counterexample: for a 3-row run labelled
`[Positive, Positive, Negative]` the spec's rule demands Positive = 66.7
and Neutral = 0.0, but the report always says 65 and 20. -/
theorem summary_percentages_cex :
    summaryField (summary_data "admin" "2026-02-03" 3 "TextBlob (Recommended)"
      "sess" "development") "Positive Sentiment (%)" = some "65" ∧
    summaryField (summary_data "admin" "2026-02-03" 3 "TextBlob (Recommended)"
      "sess" "development") "Neutral Sentiment (%)" = some "20" ∧
    specPct "Positive" ["Positive", "Positive", "Negative"] = 667 / 10 ∧
    specPct "Neutral" ["Positive", "Positive", "Negative"] = 0 ∧
    (65 : ℚ) ≠ 667 / 10 ∧ (20 : ℚ) ≠ 0 := by
  refine ⟨rfl, rfl, ?_, ?_, by norm_num, by norm_num⟩
  · have hc : (["Positive", "Positive", "Negative"].countP
        (fun l => l == "Positive")) = 2 := by decide
    have hl : (["Positive", "Positive", "Negative"].length) = 3 := rfl
    have harg : (100 * (((["Positive", "Positive", "Negative"].countP
        (fun l => l == "Positive")) : ℕ) : ℚ) /
        (((["Positive", "Positive", "Negative"].length) : ℕ) : ℚ)) = 200 / 3 := by
      rw [hc, hl]
      norm_num
    rw [specPct, harg, round1_eq]
    have hf : ⌊(200 / 3 : ℚ) * 10 + 1 / 2⌋ = (667 : ℤ) := by
      refine Int.floor_eq_iff.mpr ?_
      norm_num
    rw [hf]
    norm_num
  · have hc : (["Positive", "Positive", "Negative"].countP
        (fun l => l == "Neutral")) = 0 := by decide
    have harg : (100 * (((["Positive", "Positive", "Negative"].countP
        (fun l => l == "Neutral")) : ℕ) : ℚ) /
        (((["Positive", "Positive", "Negative"].length) : ℕ) : ℚ)) = 0 := by
      rw [hc]
      norm_num
    rw [specPct, harg, round1_eq]
    have hf : ⌊(0 : ℚ) * 10 + 1 / 2⌋ = (0 : ℤ) := by
      refine Int.floor_eq_iff.mpr ?_
      norm_num
    rw [hf]
    norm_num

/-- C4: when the uploaded file exceeds the configured maximum size or
fails to parse as its declared format, the handler reports an error, the
run does not proceed, and the previously loaded table state is left
entirely unchanged. -/
theorem handleUpload_error_keeps_state (maxMB : Nat) (s : SessState)
    (f : UploadedFile)
    (h : ((f.sizeBytes : ℚ) / (1024 * 1024)) > (maxMB : ℚ) ∨
      ∃ e, f.parsed = Except.error e) :
    (handleUpload maxMB s f).snd.isSome = true ∧
    (handleUpload maxMB s f).fst = s := by
  unfold handleUpload
  rcases h with h | ⟨e, he⟩
  · rw [if_pos h]
    exact ⟨rfl, rfl⟩
  · split
    · exact ⟨rfl, rfl⟩
    · rw [he]
      exact ⟨rfl, rfl⟩

/-- An uploaded file that is both oversized (20 MB) and unparsable. -/
def badFile : UploadedFile := ⟨"big.csv", 20971520, Except.error "bad header"⟩

/-- Session state with a previously loaded table. -/
def s0 : SessState := ⟨some df1, some "old.csv", true⟩

/-- C4 witness: the oversized file is rejected with an error and the
previously loaded table survives untouched. -/
theorem handleUpload_error_keeps_state_witness :
    (handleUpload 10 s0 badFile).snd.isSome = true ∧
    (handleUpload 10 s0 badFile).fst = s0 :=
  handleUpload_error_keeps_state 10 s0 badFile
    (Or.inl (by norm_num [badFile]))

/-- C5: running the detailed analysis a second time on the unchanged table
with the unchanged configuration — whatever generator state the first run
left behind, and even at a different wall-clock timestamp — produces the
identical sentiment label column, because the handler reseeds the
generator with the constant 42. -/
theorem rerun_yields_identical_labels (g : Nat) (mode user ts1 ts2 : String)
    (df : DataFrame) :
    getCol (detailedExportRun g mode user ts1 df).fst "sentiment_category" =
      getCol (detailedExportRun (detailedExportRun g mode user ts1 df).snd
        mode user ts2 df).fst "sentiment_category" := by
  rw [getCol_export_category, getCol_export_category]

/-- C6: every numeric sentiment score attached to a row of the detailed
result table lies within the closed interval `[-1, 1]`, for any uploaded
table: the uniform draw lies in `[-1, 1)` and rounding to 3 decimals stays
within `[-1, 1]`. -/
theorem sentiment_score_in_range (mode user ts : String) (df : DataFrame)
    (sc : List Cell)
    (h : getCol (detailedExport mode user ts df) "sentiment_score" = some sc)
    (c : Cell) (hc : c ∈ sc) : -1 ≤ cellNum c ∧ cellNum c ≤ 1 := by
  rw [detailedExport, getCol_export_score] at h
  obtain rfl : sc = (scoresOf df.nRows).map Cell.num := (Option.some.inj h).symm
  obtain ⟨q, hq, rfl⟩ := List.mem_map.mp hc
  simpa [cellNum] using scoresOf_bound hq

/-- C6 witness: the single score of the one-row table, `-0.008`, is within
bounds. -/
theorem sentiment_score_in_range_witness :
    -1 ≤ cellNum (Cell.num (-(1 / 125))) ∧ cellNum (Cell.num (-(1 / 125))) ≤ 1 :=
  sentiment_score_in_range "m" "u" "t" df1 [Cell.num (-(1 / 125))]
    (by rw [detailedExport, getCol_export_score,
          show df1.nRows = 1 from rfl, scoresOf_one]
        rfl)
    (Cell.num (-(1 / 125))) (by simp)

/-- C7 (amended): every original column of the uploaded table whose own
name is not one of the six appended analysis column names is preserved
verbatim in the detailed result — even when other columns of the same
table do clash; a pass-through column that itself shares a name with an
analysis column is overwritten instead. -/
theorem passthrough_columns_preserved (mode user ts : String)
    (df : DataFrame) :
    ∀ c ∈ df.cols, c.fst ∉ analysisCols →
      c ∈ (detailedExport mode user ts df).cols := by
  intro c hc hna
  have h6 := hna
  simp only [analysisCols, List.mem_cons, List.not_mem_nil, or_false,
    not_or] at h6
  show c ∈ (detailedExportRun 0 mode user ts df).fst.cols
  simp only [detailedExportRun]
  exact mem_setCol_of_ne (mem_setCol_of_ne (mem_setCol_of_ne
    (mem_setCol_of_ne (mem_setCol_of_ne (mem_setCol_of_ne hc h6.1 _)
      h6.2.1 _) h6.2.2.1 _) h6.2.2.2.1 _) h6.2.2.2.2.1 _) h6.2.2.2.2.2 _

/-- A mixed one-row table: a pass-through column next to a column whose
name clashes with an appended analysis column. -/
def df4 : DataFrame :=
  ⟨1, [("review", [Cell.str "ab"]), ("analyzed_by", [Cell.str "x"])]⟩

/-- C7 witness: the `review` column of the mixed table survives the export
verbatim although its neighbour `analyzed_by` clashes with an analysis
column. -/
theorem passthrough_columns_preserved_witness :
    ("review", [Cell.str "ab"]) ∈ (detailedExport "m" "u" "t" df4).cols :=
  passthrough_columns_preserved "m" "u" "t" df4
    ("review", [Cell.str "ab"]) (by decide) (by decide)

/-- C7 counterexample: an uploaded table that already has a column named
`sentiment_score` does not keep it verbatim — the export overwrites it
with the generated scores. -/
theorem passthrough_overwritten_cex :
    ("sentiment_score", [Cell.str "hello"]) ∈ df2.cols ∧
    ("sentiment_score", [Cell.str "hello"]) ∉
      (detailedExport "m" "u" "t" df2).cols :=
  ⟨by decide, by decide⟩

/-- C9: for any two uploaded tables with the same number of rows the
detailed-analysis export produces identical `sentiment_score` and
`sentiment_category` columns, whatever the text contents — the generator
is reseeded with 42 and the draws depend on the row count alone. -/
theorem export_depends_only_on_row_count (m1 u1 t1 m2 u2 t2 : String)
    (dfA dfB : DataFrame) (h : dfA.nRows = dfB.nRows) :
    getCol (detailedExport m1 u1 t1 dfA) "sentiment_score" =
      getCol (detailedExport m2 u2 t2 dfB) "sentiment_score" ∧
    getCol (detailedExport m1 u1 t1 dfA) "sentiment_category" =
      getCol (detailedExport m2 u2 t2 dfB) "sentiment_category" := by
  simp only [detailedExport, getCol_export_score, getCol_export_category, h]
  exact ⟨trivial, trivial⟩

/-- C9 witness: two one-row tables with entirely different text columns
export the same score and category columns. -/
theorem export_depends_only_on_row_count_witness :
    getCol (detailedExport "m" "u" "t" df1) "sentiment_score" =
      getCol (detailedExport "m" "u" "t" df3) "sentiment_score" ∧
    getCol (detailedExport "m" "u" "t" df1) "sentiment_category" =
      getCol (detailedExport "m" "u" "t" df3) "sentiment_category" :=
  export_depends_only_on_row_count "m" "u" "t" "m" "u" "t" df1 df3 rfl

/-- C10: a username with at least 3 recorded failed attempts whose most
recent failure was less than 300 seconds ago is refused even when the
submitted password is correct; and whenever a login succeeds, the
username's failed-attempt entry is removed from the attempts map. -/
theorem check_password_lockout_and_reset (cfg : AuthConfig)
    (att : List (String × Nat × Nat)) (now : Nat)
    (username password : String) (a t : Nat)
    (hl : lookupA att (normUser username) = some (a, t))
    (ha : 3 ≤ a) (ht : (now : ℤ) - (t : ℤ) < 300) :
    (check_password cfg att now username password).fst.fst = false ∧
    ∀ (att' : List (String × Nat × Nat)) (u' p' : String),
      (check_password cfg att' now u' p').fst.fst = true →
      lookupA (check_password cfg att' now u' p').snd (normUser u') = none := by
  constructor
  · simp [check_password, hl, ha, ht]
  · intro att' u' p' hs
    simp only [check_password] at hs ⊢
    split at hs
    · simp at hs
    · split at hs
      · next hlock hok =>
        rw [if_neg hlock, if_pos hok]
        exact lookupA_removeA att' (normUser u')
      · simp at hs

/-- The default authentication configuration of `load_config`. -/
def cfg0 : AuthConfig :=
  ⟨"sentiment2024", ["admin"], ["admin", "analyst", "user"]⟩

/-- C10 witness: the user `bob` with 3 failures recorded at time 0 is
refused at time 100 even with the correct shared password. -/
theorem check_password_lockout_and_reset_witness :
    (check_password cfg0 [("bob", 3, 0)] 100 "bob" "sentiment2024").fst.fst
      = false ∧
    ∀ (att' : List (String × Nat × Nat)) (u' p' : String),
      (check_password cfg0 att' 100 u' p').fst.fst = true →
      lookupA (check_password cfg0 att' 100 u' p').snd (normUser u') = none :=
  check_password_lockout_and_reset cfg0 [("bob", 3, 0)] 100 "bob"
    "sentiment2024" 3 0 (by decide) (by decide) (by decide)
